import Mathlib

set_option autoImplicit false
set_option maxRecDepth 8192

namespace Psyduck

/-! Shallow embedding of the psyduck collection plugins
    (src/plugin/webscrape/main.py, src/plugin/deepscrape/main.py,
    src/plugin/facebook/main.py).

    Conventions of the embedding:
    * wall-clock time is a `Nat` counter threaded through the state; the
      durations of the code's network calls and `asyncio.sleep` pauses are
      environment-supplied parameters, and every logged Oracle call is
      time-stamped with the instant at which the call is initiated;
    * the external collaborators (browser, vision model, `json.loads`) are
      inputs: per-round candidate batches, per-call enrichment outcomes and
      the JSON parser are fields of an environment record;
    * Python dicts holding JSON scalars are modelled as association lists
      from `String` to `String`. -/

/-- Python whitespace test used by `str.strip()` (ASCII fragment). -/
def isPySpace (c : Char) : Bool :=
  c == ' ' || c == '\t' || c == '\n' || c == '\r'

/-- Python `str.strip()`: remove leading and trailing whitespace. -/
def pyStrip (s : String) : String :=
  String.mk (((s.data.dropWhile isPySpace).reverse.dropWhile isPySpace).reverse)

/-- Index of the first occurrence of a character (Python `str.find`,
    with `none` for `-1`). -/
def idxOf? (c : Char) : List Char → Option Nat
  | [] => none
  | d :: rest => if d = c then some 0 else (idxOf? c rest).map (· + 1)

/-- Index of the last occurrence of a character (Python `str.rfind`,
    with `none` for `-1`). -/
def lastIdxOf? (c : Char) (l : List Char) : Option Nat :=
  (idxOf? c l.reverse).map (fun i => l.length - 1 - i)

/-- The JSON-locating slice all three plugins use on the vision model's
    reply: `start = content.find(openC)`, `end = content.rfind(closeC) + 1`,
    and the slice `content[start:end]` provided `start != -1 and end > start`. -/
def locateJson (openC closeC : Char) (content : String) : Option String :=
  let cs := content.data
  match idxOf? openC cs, lastIdxOf? closeC cs with
  | some i, some j => if i < j + 1 then some (String.mk ((cs.drop i).take (j + 1 - i))) else none
  | _, _ => none

/-- Bracket slice for a JSON array (`find('[')` / `rfind(']')`). -/
def locateJsonArray : String → Option String := locateJson '[' ']'

/-- Brace slice for a JSON object (`find` / `rfind` of the braces). -/
def locateJsonObject : String → Option String := locateJson '{' '}'

/-! ## The webscrape collector (src/plugin/webscrape/main.py) -/

/-- One candidate parsed from the Oracle's JSON array in
    `_analyze_search_results`; each field is optional because the code reads
    it with `result.get(key, default)`. -/
structure WItem where
  url? : Option String
  title? : Option String
  excerpt? : Option String
  publisher? : Option String
  date? : Option String
  rank? : Option Nat
deriving DecidableEq

/-- One accepted row, as built in `_scroll_and_collect_results`
    (the `row_data` dict). `scraped_at` is the clock value at build time. -/
structure WRow where
  search_term : String
  engine : String
  rank : Nat
  title : String
  url : String
  excerpt : String
  publisher : String
  date : String
  scraped_at : Nat
deriving DecidableEq

/-- Which advance mechanism succeeded for a round: a "Load more" click
    (`_try_click_load_more`), a pagination "Next" click
    (`_try_click_pagination`), or the scroll fallback. The environment
    decides, since success depends on the rendered page. -/
inductive AdvKind where
  | loadMore
  | pagination
  | scroll
deriving DecidableEq

/-- Environment of one webscrape run: collaborator behaviour and the
    arguments of `_scroll_and_collect_results`. `batches n` is the list of
    candidates the Oracle yields at the n-th analysis call; `advance n` is
    the advance mechanism that succeeds after round n; the `t*` fields are
    the durations of the extraction call, the per-result random delay and
    the post-advance pause. -/
structure WEnv where
  batches : Nat → List WItem
  advance : Nat → AdvKind
  tExtract : Nat
  tItem : Nat
  tAdvance : Nat
  maxResults : Nat
  searchTerm : String
  engine : String

/-- Mutable state of `_scroll_and_collect_results`, plus the Oracle-call
    time stamps and the advance-kind log used by the theorems. -/
structure WState where
  collected : List WRow
  seen : List String
  failRounds : Nat
  scrollCount : Nat
  round : Nat
  now : Nat
  oracleLog : List Nat
  advLog : List AdvKind
deriving DecidableEq

/-- The `max_scrolls = 10` constant of `_scroll_and_collect_results`. -/
def wMaxScrolls : Nat := 10

/-- The `row_data` dict built for an accepted result: rank defaults to
    `len(collected) + 1`, the other absent fields default to the empty
    string. -/
def wRowOf (env : WEnv) (s : WState) (it : WItem) (url title : String) : WRow :=
  { search_term := env.searchTerm
    engine := env.engine
    rank := it.rank?.getD (s.collected.length + 1)
    title := title
    url := url
    excerpt := it.excerpt?.getD ""
    publisher := it.publisher?.getD ""
    date := it.date?.getD ""
    scraped_at := s.now }

/-- The `for result in results` body of `_scroll_and_collect_results`:
    skip when the stripped title is empty or the URL is already seen;
    otherwise record the URL as seen, wait the random delay, append the row,
    and break out of the batch once `len(collected) >= max_results`.
    Returns the new state together with `new_count`. -/
def wItems (env : WEnv) : List WItem → WState → Nat → WState × Nat
  | [], s, new => (s, new)
  | it :: rest, s, new =>
    let url := it.url?.getD ""
    let title := pyStrip (it.title?.getD "")
    if title = "" ∨ url ∈ s.seen then
      wItems env rest s new
    else
      let s1 : WState := { s with seen := url :: s.seen, now := s.now + env.tItem }
      let row := wRowOf env s1 it url title
      let s2 : WState := { s1 with collected := s1.collected ++ [row] }
      if env.maxResults ≤ s2.collected.length then (s2, new + 1)
      else wItems env rest s2 (new + 1)

/-- The `while` guard of `_scroll_and_collect_results`:
    `len(collected) < max_results and fail_rounds < 3 and scroll_count <
    max_scrolls`. There is no deadline conjunct: the function takes no
    time budget. -/
abbrev wGuard (env : WEnv) (s : WState) : Prop :=
  s.collected.length < env.maxResults ∧ s.failRounds < 3 ∧ s.scrollCount < wMaxScrolls

/-- One round of `_scroll_and_collect_results`: analyze the viewport
    (one Oracle call, logged at its initiation time), process the batch,
    update `fail_rounds`, and, when the target is not reached and the scroll
    cap not hit, advance the view — trying "Load more", then pagination,
    then the scroll fallback — and increment `scroll_count` unconditionally
    afterwards. -/
def wStep (env : WEnv) (s : WState) : WState :=
  let s0 : WState := { s with oracleLog := s.oracleLog ++ [s.now], now := s.now + env.tExtract }
  let p := wItems env (env.batches s.round) s0 0
  let s1 := p.1
  let s2 : WState := { s1 with failRounds := if p.2 = 0 then s1.failRounds + 1 else 0 }
  if s2.collected.length < env.maxResults ∧ s2.scrollCount < wMaxScrolls then
    { s2 with advLog := s2.advLog ++ [env.advance s2.round]
              now := s2.now + env.tAdvance
              scrollCount := s2.scrollCount + 1
              round := s2.round + 1 }
  else
    { s2 with round := s2.round + 1 }

/-- Fuelled unfolding of the `while` loop. -/
def wLoop (env : WEnv) : Nat → WState → WState
  | 0, s => s
  | fuel + 1, s => if wGuard env s then wLoop env fuel (wStep env s) else s

/-- Initial `RunState` of `_scroll_and_collect_results`. -/
def wInit : WState :=
  { collected := []
    seen := []
    failRounds := 0
    scrollCount := 0
    round := 0
    now := 0
    oracleLog := []
    advLog := [] }

/-- A full run of `_scroll_and_collect_results`. `wMaxScrolls + 1` rounds
    of fuel always suffice: every non-final round increments
    `scroll_count`, which the guard bounds by `wMaxScrolls`. -/
def wRun (env : WEnv) : WState := wLoop env (wMaxScrolls + 1) wInit

/-- The value the function returns to `_run`: just the collected rows. -/
def wCollect (env : WEnv) : List WRow := (wRun env).collected

/-! ## Oracle extraction with failure (webscrape `_analyze_search_results`) -/

/-- Outcome of the `client.chat.completions.create` call: either the call
    (or anything inside the `try`) raised, or it returned a text reply. -/
inductive ApiResp where
  | err
  | ok (content : String)
deriving DecidableEq

/-- An element of the JSON array `json.loads` returned, exactly as the
    item loop sees it: either an object whose relevant fields are strings
    or absent (`obj`), or a value on which the per-item code raises
    `AttributeError` (`bad`) — a non-object element (so `result.get`
    raises) or an object whose title value is not a string (so `.strip()`
    raises). `_analyze_search_results` performs no validation of the
    parsed array, so such elements reach the item loop unfiltered. -/
inductive PyItem where
  | obj (it : WItem)
  | bad
deriving DecidableEq

/-- Model of `_analyze_search_results` (and of the identically shaped
    `_extract_search_results_via_vision` and `_analyze_page_with_vision`):
    an exception yields `[]`; otherwise the reply is sliced between the
    first `[` and the last `]`; no slice yields `[]`; `json.loads` is the
    function argument `parse`, a parse failure (an exception, caught by
    the same `except`) also yields `[]`, and a successful parse is
    returned as is, without validation. -/
def analyzeSearchResults (parse : String → Option (List PyItem)) (resp : ApiResp) :
    List PyItem :=
  match resp with
  | .err => []
  | .ok content =>
    match locateJsonArray content with
    | none => []
    | some j => (parse j).getD []

/-- The failure modes of one Oracle extraction call that the code absorbs:
    the call raised, the reply holds no locatable JSON array, or the slice
    does not parse. (A slice that parses to ill-shaped elements is NOT
    among them: it reaches the item loop and crashes there.) -/
def oracleFailure (parse : String → Option (List PyItem)) (resp : ApiResp) : Prop :=
  resp = ApiResp.err ∨ ∃ c, resp = ApiResp.ok c ∧
    (locateJsonArray c = none ∨ ∃ j, locateJsonArray c = some j ∧ parse j = none)

/-- The `for result in results` body over the raw parsed elements: an
    `obj` element behaves exactly as in `wItems`; a `bad` element raises
    `AttributeError` before any state change, and nothing in
    `_scroll_and_collect_results` or `_run` catches it — the exception
    aborts the run and the state is lost (`Except.error`). -/
def wItemsE (env : WEnv) : List PyItem → WState → Nat → Except Unit (WState × Nat)
  | [], s, new => Except.ok (s, new)
  | PyItem.bad :: _, _, _ => Except.error ()
  | PyItem.obj it :: rest, s, new =>
    let url := it.url?.getD ""
    let title := pyStrip (it.title?.getD "")
    if title = "" ∨ url ∈ s.seen then
      wItemsE env rest s new
    else
      let s1 : WState := { s with seen := url :: s.seen, now := s.now + env.tItem }
      let row := wRowOf env s1 it url title
      let s2 : WState := { s1 with collected := s1.collected ++ [row] }
      if env.maxResults ≤ s2.collected.length then Except.ok (s2, new + 1)
      else wItemsE env rest s2 (new + 1)

/-- One round of `_scroll_and_collect_results` over raw parsed batches
    (`pb n` is what round n's extraction returned; it supersedes
    `env.batches`). An uncaught `AttributeError` in the item loop
    propagates out of the round. -/
def wStepE (env : WEnv) (pb : Nat → List PyItem) (s : WState) : Except Unit WState :=
  let s0 : WState := { s with oracleLog := s.oracleLog ++ [s.now], now := s.now + env.tExtract }
  match wItemsE env (pb s.round) s0 0 with
  | Except.error e => Except.error e
  | Except.ok p =>
    let s1 := p.1
    let s2 : WState := { s1 with failRounds := if p.2 = 0 then s1.failRounds + 1 else 0 }
    if s2.collected.length < env.maxResults ∧ s2.scrollCount < wMaxScrolls then
      Except.ok { s2 with advLog := s2.advLog ++ [env.advance s2.round]
                          now := s2.now + env.tAdvance
                          scrollCount := s2.scrollCount + 1
                          round := s2.round + 1 }
    else
      Except.ok { s2 with round := s2.round + 1 }

/-- Fuelled loop over raw parsed batches; the exception propagates out of
    the loop and out of `_run` (only the command handler catches it, after
    the collected rows are lost and before any CSV is written). -/
def wLoopE (env : WEnv) (pb : Nat → List PyItem) : Nat → WState → Except Unit WState
  | 0, s => Except.ok s
  | fuel + 1, s =>
    if wGuard env s then
      match wStepE env pb s with
      | Except.error e => Except.error e
      | Except.ok s' => wLoopE env pb fuel s'
    else Except.ok s

/-- A full run of `_scroll_and_collect_results` over raw parsed batches. -/
def wRunE (env : WEnv) (pb : Nat → List PyItem) : Except Unit WState :=
  wLoopE env pb (wMaxScrolls + 1) wInit

/-! ## Python dicts as association lists (for the deepscrape records) -/

/-- A Python dict holding JSON scalars, modelled as an association list. -/
abbrev Dict := List (String × String)

/-- Lookup (`d.get(k)`). -/
def dictGet? (d : Dict) (k : String) : Option String :=
  (d.find? (fun p => p.1 == k)).map (·.2)

/-- Assignment `d[k] = v`: replace in place, or append a new key. -/
def dictSet : Dict → String → String → Dict
  | [], k, v => [(k, v)]
  | (k', v') :: rest, k, v =>
    if k' = k then (k, v) :: rest else (k', v') :: dictSet rest k v

/-- Python `d.update(u)`: assign every key of `u` into `d`. -/
def dictUpdate (d : Dict) (u : Dict) : Dict :=
  u.foldl (fun acc p => dictSet acc p.1 p.2) d

/-! ## The deepscrape collector (src/plugin/deepscrape/main.py) -/

/-- One candidate from `_extract_search_results_via_vision`; all fields
    read with `item.get`. The `rank` default in this plugin is `''`, so it
    is kept as a string. -/
structure DItem where
  url? : Option String
  title? : Option String
  publisher? : Option String
  excerpt? : Option String
  rank? : Option String
deriving DecidableEq

/-- Outcome of one `_analyze_page_depth` pass, decided by the environment:
    the navigation or screenshot raised before the vision call was issued
    (`navFail`), the vision call itself raised (`apiFail`), or the call
    returned a text reply. -/
inductive EnrichOutcome where
  | navFail
  | apiFail
  | content (c : String)
deriving DecidableEq

/-- Whether the outcome involves an issued Oracle call. -/
def enrichCallMade : EnrichOutcome → Bool
  | EnrichOutcome.navFail => false
  | EnrichOutcome.apiFail => true
  | EnrichOutcome.content _ => true

/-- Model of `_analyze_page_depth`: start from `data = {"url": url}`;
    return it unchanged when `depth <= 0`, when no OpenAI client is
    configured, or on any failure (navigation error, Oracle error, reply
    with no locatable JSON object, unparsable slice — every one is caught
    by the `except` and `data` is returned). On success the parsed object
    gets its `url` key overwritten with the record's URL. -/
def analyzePageDepth (parseObj : String → Option Dict) (hasClient : Bool)
    (url : String) (depth : Nat) (o : EnrichOutcome) : Dict :=
  let data : Dict := [("url", url)]
  if depth = 0 then data
  else if hasClient = false then data
  else
    match o with
    | EnrichOutcome.navFail => data
    | EnrichOutcome.apiFail => data
    | EnrichOutcome.content c =>
      match locateJsonObject c with
      | none => data
      | some j =>
        match parseObj j with
        | none => data
        | some parsed => dictSet parsed "url" url

/-- Environment of one deepscrape engine run (`_run`, single target):
    per-round Oracle batches, per-call enrichment outcomes (indexed by how
    many enrichment passes have run), the JSON-object parser, the call and
    pause durations (`tNav` is the `page.goto` + mandatory 2-second sleep +
    screenshot work that precedes the enrichment Oracle call, during which
    the deadline is never re-checked), and the request (`want_results`,
    `depth`, and the deadline `time.time() + max(1, timeout_s)` with the
    start at 0). -/
structure DEnv where
  batches : Nat → List DItem
  enrich : Nat → EnrichOutcome
  parseObj : String → Option Dict
  tExtract : Nat
  tNav : Nat
  tItem : Nat
  tScroll : Nat
  wantResults : Nat
  depth : Nat
  deadline : Nat

/-- Mutable state of the deepscrape `while` loop. There is no seen-set:
    the source keeps none. -/
structure DState where
  collected : List Dict
  failRounds : Nat
  scrolls : Nat
  round : Nat
  enrichIdx : Nat
  now : Nat
  oracleLog : List Nat

/-- The `scrolls < 8` cap of the deepscrape loop. -/
def dMaxScrolls : Nat := 8

/-- The shallow `record` dict built for an accepted deepscrape item. -/
def dRecordOf (it : DItem) (url title : String) : Dict :=
  [("url", url), ("title", title),
   ("publisher", it.publisher?.getD ""),
   ("excerpt", it.excerpt?.getD ""),
   ("rank", it.rank?.getD "")]

/-- The `if depth > 0` block of the deepscrape item processing: open a
    temporary tab and run `_analyze_page_depth`. The navigation work that
    precedes the vision call — `page.goto`, a mandatory `asyncio.sleep(2)`
    and a screenshot — takes `tNav` time units and the deadline is NOT
    re-checked during it, so the Oracle call (logged at its initiation
    instant, the check time plus `tNav`) can be initiated after a deadline
    that expires inside that window. On a navigation failure no call is
    issued. The outcome dict is merged into the shallow record with
    `record.update(detail_data)`; at depth 0 the record passes through
    unchanged and no tab, navigation or call happens. -/
def dEnrich (env : DEnv) (s : DState) (record : Dict) (url : String) : DState × Dict :=
  if 0 < env.depth then
    let o := env.enrich s.enrichIdx
    let s1 : DState := { s with
      enrichIdx := s.enrichIdx + 1
      oracleLog := if enrichCallMade o then s.oracleLog ++ [s.now + env.tNav] else s.oracleLog
      now := s.now + env.tNav + env.tItem }
    (s1, dictUpdate record (analyzePageDepth env.parseObj true url env.depth o))
  else (s, record)

/-- Acceptance of one deepscrape item: build the shallow record, run the
    depth pass (`dEnrich`), and append the merged record to `collected`. -/
def dAccept (env : DEnv) (s : DState) (it : DItem) : DState :=
  let url := it.url?.getD ""
  let q := dEnrich env s (dRecordOf it url (pyStrip (it.title?.getD ""))) url
  { q.1 with collected := q.1.collected ++ [q.2] }

/-- The `for item in batch` body of the deepscrape `_run`, one item at a
    time (see the doc comment above `dAccept` for the accept path). -/
def dItems (env : DEnv) : List DItem → DState → Nat → DState × Nat
  | [], s, new => (s, new)
  | it :: rest, s, new =>
    if env.deadline ≤ s.now ∨ env.wantResults ≤ s.collected.length then (s, new)
    else
      if it.url?.getD "" = "" ∨ pyStrip (it.title?.getD "") = "" then dItems env rest s new
      else
        let s2 := dAccept env s it
        if env.wantResults ≤ s2.collected.length then (s2, new + 1)
        else dItems env rest s2 (new + 1)

/-- The deepscrape `while` guard: `len(collected) < want_results and
    time.time() < deadline and fail_rounds < 3 and scrolls < 8`. -/
abbrev dGuard (env : DEnv) (s : DState) : Prop :=
  s.collected.length < env.wantResults ∧ s.now < env.deadline ∧
    s.failRounds < 3 ∧ s.scrolls < dMaxScrolls

/-- One deepscrape round: one extraction call (logged at initiation),
    the batch walk, the `fail_rounds` update, and the guarded
    scroll-to-bottom advance (`scrolls += 1` inside the guard). -/
def dStep (env : DEnv) (s : DState) : DState :=
  let s0 : DState := { s with oracleLog := s.oracleLog ++ [s.now], now := s.now + env.tExtract }
  let p := dItems env (env.batches s.round) s0 0
  let s1 := p.1
  let s2 : DState := { s1 with failRounds := if p.2 = 0 then s1.failRounds + 1 else 0 }
  if s2.collected.length < env.wantResults ∧ s2.now < env.deadline ∧ s2.scrolls < dMaxScrolls then
    { s2 with now := s2.now + env.tScroll, scrolls := s2.scrolls + 1, round := s2.round + 1 }
  else
    { s2 with round := s2.round + 1 }

/-- Fuelled unfolding of the deepscrape loop. -/
def dLoop (env : DEnv) : Nat → DState → DState
  | 0, s => s
  | fuel + 1, s => if dGuard env s then dLoop env fuel (dStep env s) else s

/-- Initial deepscrape state (clock starts at 0). -/
def dInit : DState :=
  { collected := []
    failRounds := 0
    scrolls := 0
    round := 0
    enrichIdx := 0
    now := 0
    oracleLog := [] }

/-- A full deepscrape engine run; `dMaxScrolls + 1` rounds of fuel always
    suffice, as every non-final round increments `scrolls`. -/
def dRun (env : DEnv) : DState := dLoop env (dMaxScrolls + 1) dInit

/-! ## The facebook collector (src/plugin/facebook/main.py) -/

/-- One post candidate from `_analyze_page_with_vision`, read with
    `post_data.get`. The comment-expansion details only feed the comment
    text cells and are not modelled. -/
structure FItem where
  post_id? : Option String
  is_hashtag_only : Bool
  has_text_content : Bool
  post_text? : Option String
  author_name? : Option String
  likes_count? : Option String
  comments_count? : Option String
deriving DecidableEq

/-- An accepted facebook row (the identity and content columns of
    `row_data`; the serialized comment columns are omitted). -/
structure FRow where
  post_id : String
  author_name : String
  post_text : String
  likes_count : String
  comments_count : String
deriving DecidableEq

/-- Environment of one `_scroll_and_collect_with_vision` run. -/
structure FEnv where
  batches : Nat → List FItem
  maxPosts : Nat

/-- Mutable state of the facebook loop. -/
structure FState where
  collected : List FRow
  seen : List String
  failRounds : Nat
  scrollCount : Nat
  round : Nat

/-- The `max_scrolls = 20` cap of the facebook loop. -/
def fMaxScrolls : Nat := 20

/-- The `for post_data in posts_data` body: derive the post id with the
    synthesized default `post_{len(collected)}`, skip if seen, mark seen,
    then skip hashtag-only posts, posts without text content, and posts
    whose stripped text is shorter than 10 characters; otherwise append the
    row and break once the target is reached. -/
def fItems (env : FEnv) : List FItem → FState → Nat → FState × Nat
  | [], s, new => (s, new)
  | it :: rest, s, new =>
    let pid := it.post_id?.getD ("post_" ++ toString s.collected.length)
    if pid ∈ s.seen then fItems env rest s new
    else
      let s1 : FState := { s with seen := pid :: s.seen }
      if it.is_hashtag_only then fItems env rest s1 new
      else if it.has_text_content = false then fItems env rest s1 new
      else
        let text := pyStrip (it.post_text?.getD "")
        if text.length < 10 then fItems env rest s1 new
        else
          let row : FRow :=
            { post_id := pid
              author_name := it.author_name?.getD "Unknown"
              post_text := text
              likes_count := it.likes_count?.getD "0"
              comments_count := it.comments_count?.getD "0" }
          let s2 : FState := { s1 with collected := s1.collected ++ [row] }
          if env.maxPosts ≤ s2.collected.length then (s2, new + 1)
          else fItems env rest s2 (new + 1)

/-- The facebook `while` guard: `len(collected) < max_posts and
    fail_rounds < 5 and scroll_count < max_scrolls`. -/
abbrev fGuard (env : FEnv) (s : FState) : Prop :=
  s.collected.length < env.maxPosts ∧ s.failRounds < 5 ∧ s.scrollCount < fMaxScrolls

/-- One facebook round: batch walk, `fail_rounds` update, guarded scroll. -/
def fStep (env : FEnv) (s : FState) : FState :=
  let p := fItems env (env.batches s.round) s 0
  let s1 := p.1
  let s2 : FState := { s1 with failRounds := if p.2 = 0 then s1.failRounds + 1 else 0 }
  if s2.collected.length < env.maxPosts ∧ s2.scrollCount < fMaxScrolls then
    { s2 with scrollCount := s2.scrollCount + 1, round := s2.round + 1 }
  else
    { s2 with round := s2.round + 1 }

/-- Fuelled unfolding of the facebook loop. -/
def fLoop (env : FEnv) : Nat → FState → FState
  | 0, s => s
  | fuel + 1, s => if fGuard env s then fLoop env fuel (fStep env s) else s

/-- Initial facebook state. -/
def fInit : FState :=
  { collected := [], seen := [], failRounds := 0, scrollCount := 0, round := 0 }

/-- A full facebook run; `fMaxScrolls + 1` rounds of fuel always suffice. -/
def fRun (env : FEnv) : FState := fLoop env (fMaxScrolls + 1) fInit

/-! ## The Sink (deepscrape `_write_csv` and `_sanitize_filename`) -/

/-- Python word character, ASCII fragment of the regex class `\w`. -/
def pyIsWordChar (c : Char) : Bool := c.isAlphanum || c == '_'

/-- A character the first substitution of `_sanitize_filename` keeps
    (everything matching `[^\w\s-]` is removed). -/
def sanitizeKeep (c : Char) : Bool := pyIsWordChar c || isPySpace c || c == '-'

/-- A character of the regex class `[-\s]`. -/
def isDashSpace (c : Char) : Bool := c == '-' || isPySpace c

/-- The substitution `re.sub(r'[-\s]+', '_', s)`: each maximal run of
    dashes and whitespace becomes a single underscore. The flag records
    whether the previous character belonged to such a run. -/
def collapseDashSpace : Bool → List Char → List Char
  | _, [] => []
  | inRun, c :: rest =>
    if isDashSpace c then
      if inRun then collapseDashSpace true rest
      else '_' :: collapseDashSpace true rest
    else c :: collapseDashSpace false rest

/-- Model of `_sanitize_filename` (deepscrape variant): strip forbidden
    characters, collapse dash/space runs to underscores, strip leading and
    trailing underscores, then either the first 60 characters or the
    fallback `results` when nothing is left. -/
def sanitizeFilename (text : String) : String :=
  let kept := text.data.filter sanitizeKeep
  let collapsed := collapseDashSpace false kept
  let stripped := ((collapsed.dropWhile (· == '_')).reverse.dropWhile (· == '_')).reverse
  if stripped = [] then "results" else String.mk (stripped.take 60)

/-- The deterministic output path `data/deepscrape_<term>.csv` (the fixed
    directory prefix is elided). -/
def dOutPath (term : String) : String :=
  "deepscrape_" ++ sanitizeFilename term ++ ".csv"

/-- One CSV data row of the deepscrape sink, in the order of `fieldnames`. -/
structure CsvRow where
  search_term : String
  url : String
  title : String
  author : String
  date : String
  publisher : String
  rank : String
  excerpt : String
  summary : String
  has_comments : String
  comments : String
  scraped_at : String
deriving DecidableEq

/-- A physical line of the output file: the header or a data row. -/
inductive CsvLine where
  | header
  | row (r : CsvRow)
deriving DecidableEq

/-- The `w.writerow` dict of `_write_csv`: each field is `r.get(key, '')`
    except `has_comments`, whose default is `False`. -/
def csvRowOf (term now : String) (r : Dict) : CsvRow :=
  { search_term := term
    url := (dictGet? r "url").getD ""
    title := (dictGet? r "title").getD ""
    author := (dictGet? r "author").getD ""
    date := (dictGet? r "date").getD ""
    publisher := (dictGet? r "publisher").getD ""
    rank := (dictGet? r "rank").getD ""
    excerpt := (dictGet? r "excerpt").getD ""
    summary := (dictGet? r "summary").getD ""
    has_comments := (dictGet? r "has_comments").getD "False"
    comments := (dictGet? r "comments").getD ""
    scraped_at := now }

/-- Model of `_write_csv`: the file is opened in append mode; the header
    is written exactly when the file did not exist
    (`new_file = not os.path.exists(out_path)`), then one row per record is
    appended. `none` models a path with no file. -/
def writeCsv (file : Option (List CsvLine)) (term now : String) (results : List Dict) :
    List CsvLine :=
  (match file with
   | none => [CsvLine.header]
   | some old => old) ++ results.map (fun r => CsvLine.row (csvRowOf term now r))

/-- A sequence of appends to the same path, oldest batch first. -/
def appendSeq (term now : String) : List (List Dict) → Option (List CsvLine) →
    Option (List CsvLine)
  | [], f => f
  | b :: rest, f => appendSeq term now rest (some (writeCsv f term now b))

/-- The dedup invariant of one webscrape run: accepted URLs are pairwise
    distinct and all recorded in the seen-set. -/
def WInv (s : WState) : Prop :=
  (s.collected.map WRow.url).Nodup ∧ ∀ r ∈ s.collected, r.url ∈ s.seen

/-- The dedup invariant of one facebook run: accepted post ids are
    pairwise distinct and all recorded in the seen-set. -/
def FInv (s : FState) : Prop :=
  (s.collected.map FRow.post_id).Nodup ∧ ∀ r ∈ s.collected, r.post_id ∈ s.seen

/-! ## Concrete runs used by the counterexamples and witnesses -/

/-- A minimal valid candidate: URL `u`, title `t`. -/
def itemT : WItem :=
  { url? := some "u", title? := some "t", excerpt? := none,
    publisher? := none, date? := none, rank? := none }

/-- A candidate with a title but no URL at all. -/
def itemNoUrl : WItem :=
  { url? := none, title? := some "t", excerpt? := none,
    publisher? := none, date? := none, rank? := none }

/-- One valid candidate in the first round, nothing afterwards;
    target 1; all durations zero. -/
def envR1 : WEnv :=
  { batches := fun n => if n = 0 then [itemT] else []
    advance := fun _ => AdvKind.scroll
    tExtract := 0
    tItem := 0
    tAdvance := 0
    maxResults := 1
    searchTerm := "q"
    engine := "d" }

/-- The same source as `envR1` but target 2: the run stalls. -/
def envR2 : WEnv := { envR1 with maxResults := 2 }

/-- A single candidate with a missing URL and a valid title. -/
def envNoUrl : WEnv := { envR1 with batches := fun n => if n = 0 then [itemNoUrl] else [] }

/-- An empty source where every extraction call takes 5 time units. -/
def envLate : WEnv := { envR1 with batches := fun _ => [], tExtract := 5 }

/-- An empty source whose "Load more" affordance always succeeds. -/
def envClick : WEnv := { envR1 with batches := fun _ => [], advance := fun _ => AdvKind.loadMore }

/-- The fresh candidate of round `n`: URL `toString n`, title `t`. -/
def itemN (n : Nat) : WItem :=
  { url? := some (toString n), title? := some "t", excerpt? := none,
    publisher? := none, date? := none, rank? := none }

/-- A source yielding exactly one fresh valid candidate per round
    (distinct URL `toString n` in round n), with target `k`. -/
def envA (k : Nat) : WEnv :=
  { batches := fun n => [itemN n]
    advance := fun _ => AdvKind.scroll
    tExtract := 0
    tItem := 0
    tAdvance := 0
    maxResults := k
    searchTerm := "q"
    engine := "d" }

/-- A deepscrape candidate with URL `u` and the given title. -/
def dItemU (t : String) : DItem :=
  { url? := some "u", title? := some t, publisher? := none, excerpt? := none, rank? := none }

/-- A deepscrape run at depth 0 whose first batch holds two candidates
    with the same URL and different titles. -/
def envDup : DEnv :=
  { batches := fun n => if n = 0 then [dItemU "a", dItemU "b"] else []
    enrich := fun _ => EnrichOutcome.navFail
    parseObj := fun _ => none
    tExtract := 0
    tNav := 0
    tItem := 0
    tScroll := 0
    wantResults := 2
    depth := 0
    deadline := 5 }

/-- The four termination reasons of the spec. -/
inductive TermReason where
  | targetReached
  | deadlineExceeded
  | stalled
  | advanceExhausted
deriving DecidableEq

/-- Modelled from the spec (section 4.1, step 3): the termination reason an
    exit state of the webscrape loop corresponds to. No such value exists
    in the source; this definition follows the spec's words so the claim
    that a reason is returned can be compared with the code's return value.
    The webscrape loop has no deadline, so deadline-exceeded cannot arise. -/
def specReasonWeb (env : WEnv) (s : WState) : TermReason :=
  if env.maxResults ≤ s.collected.length then TermReason.targetReached
  else if 3 ≤ s.failRounds then TermReason.stalled
  else TermReason.advanceExhausted

/-- The failure modes of one `_analyze_page_depth` pass: navigation or
    screenshot raised, the vision call raised, the reply holds no locatable
    JSON object, or the slice does not parse. -/
def enrichFailed (parseObj : String → Option Dict) (o : EnrichOutcome) : Prop :=
  o = EnrichOutcome.navFail ∨ o = EnrichOutcome.apiFail ∨
    ∃ c, o = EnrichOutcome.content c ∧
      (locateJsonObject c = none ∨ ∃ j, locateJsonObject c = some j ∧ parseObj j = none)

/-- The full return of `_write_csv`: the deterministic output path and the
    new file contents. -/
def writeCsvFull (file : Option (List CsvLine)) (term now : String) (results : List Dict) :
    String × List CsvLine :=
  (dOutPath term, writeCsv file term now results)

/-- A JSON parser that always fails (every `json.loads` raises). -/
def parse0 : String → Option (List PyItem) := fun _ => none

/-- An Oracle whose every call raises. -/
def rs0 : Nat → ApiResp := fun _ => ApiResp.err

/-- A parser under which `json.loads("[5]")` succeeds with a one-element
    array whose element is not an object (as the real `json.loads` does). -/
def parseBad : String → Option (List PyItem) := fun j =>
  if j = "[5]" then some [PyItem.bad] else none

/-- An Oracle reply whose JSON slice is parsable but ill-shaped. -/
def respBad : ApiResp := ApiResp.ok "[5]"

/-- A deepscrape candidate with a title but no URL. -/
def dItemNoUrl : DItem :=
  { url? := none, title? := some "t", publisher? := none, excerpt? := none, rank? := none }

/-! ## Helper lemmas: dicts -/

theorem dictSet_of_get (d : Dict) (k v : String) (h : dictGet? d k = some v) :
    dictSet d k v = d := by
  induction d with
  | nil => simp [dictGet?] at h
  | cons p rest ih =>
    obtain ⟨pk, pv⟩ := p
    by_cases hk : pk = k
    · subst hk
      have hfind : List.find? (fun q => q.1 == pk) ((pk, pv) :: rest) = some (pk, pv) :=
        List.find?_cons_of_pos _ (by simp)
      have hv : pv = v := by
        simpa [dictGet?, hfind] using h
      simp [dictSet, hv]
    · have hfind : List.find? (fun q => q.1 == k) ((pk, pv) :: rest) =
          List.find? (fun q => q.1 == k) rest :=
        List.find?_cons_of_neg _ (by simp [hk])
      have h' : dictGet? rest k = some v := by
        simpa [dictGet?, hfind] using h
      simp [dictSet, hk, ih h']

theorem dictUpdate_single (d : Dict) (k v : String) :
    dictUpdate d [(k, v)] = dictSet d k v := rfl

/-! ## Helper lemmas: the webscrape loop -/

/-- Rows already collected survive the rest of the batch walk. -/
theorem wItems_collected_mono (env : WEnv) (l : List WItem) (s : WState) (new : Nat)
    (r : WRow) (hr : r ∈ s.collected) : r ∈ ((wItems env l s new).1).collected := by
  induction l generalizing s new with
  | nil => simpa [wItems] using hr
  | cons it rest ih =>
    simp only [wItems]
    split
    · exact ih s new hr
    · split
      · exact List.mem_append_left _ hr
      · exact ih _ _ (List.mem_append_left _ hr)

/-- Seen identities survive the rest of the batch walk. -/
theorem wItems_seen_mono (env : WEnv) (l : List WItem) (s : WState) (new : Nat)
    (u : String) (hu : u ∈ s.seen) : u ∈ ((wItems env l s new).1).seen := by
  induction l generalizing s new with
  | nil => simpa [wItems] using hu
  | cons it rest ih =>
    simp only [wItems]
    split
    · exact ih s new hu
    · split
      · exact List.mem_cons_of_mem _ hu
      · exact ih _ _ (List.mem_cons_of_mem _ hu)

/-- The batch walk only touches `collected`, `seen` and the clock. -/
theorem wItems_untouched (env : WEnv) (l : List WItem) (s : WState) (new : Nat) :
    ((wItems env l s new).1).failRounds = s.failRounds ∧
    ((wItems env l s new).1).scrollCount = s.scrollCount ∧
    ((wItems env l s new).1).advLog = s.advLog ∧
    ((wItems env l s new).1).oracleLog = s.oracleLog ∧
    ((wItems env l s new).1).round = s.round := by
  induction l generalizing s new with
  | nil => simp [wItems]
  | cons it rest ih =>
    simp only [wItems]
    split
    · exact ih s new
    · split
      · exact ⟨rfl, rfl, rfl, rfl, rfl⟩
      · exact ih _ _

theorem wItems_inv (env : WEnv) (l : List WItem) (s : WState) (new : Nat)
    (h : WInv s) : WInv ((wItems env l s new).1) := by
  induction l generalizing s new with
  | nil => simpa [wItems] using h
  | cons it rest ih =>
    simp only [wItems]
    split
    · exact ih s new h
    · rename_i hskip
      have hnotseen : it.url?.getD "" ∉ s.seen := fun hmem => hskip (Or.inr hmem)
      have hfresh : it.url?.getD "" ∉ s.collected.map WRow.url := by
        intro hmem
        obtain ⟨r, hr, hru⟩ := List.mem_map.mp hmem
        exact hnotseen (hru ▸ h.2 r hr)
      have h2 : WInv { s with
          seen := it.url?.getD "" :: s.seen, now := s.now + env.tItem,
          collected := s.collected ++
            [wRowOf env { s with seen := it.url?.getD "" :: s.seen, now := s.now + env.tItem }
              it (it.url?.getD "") (pyStrip (it.title?.getD ""))] } := by
        constructor
        · simpa using List.Nodup.append h.1 (by simp) (by simpa using hfresh)
        · intro r hr
          rcases List.mem_append.mp hr with hr | hr
          · exact List.mem_cons_of_mem _ (h.2 r hr)
          · simp only [List.mem_singleton] at hr
            subst hr
            simp [wRowOf]
      split
      · exact h2
      · exact ih _ _ h2

/-- The batch walk never pushes `collected` past the target once it starts
    below it: the `break` after each append enforces the cap. -/
theorem wItems_len (env : WEnv) (l : List WItem) (s : WState) (new : Nat)
    (h : s.collected.length < env.maxResults) :
    ((wItems env l s new).1).collected.length ≤ env.maxResults := by
  induction l generalizing s new with
  | nil => simpa [wItems] using le_of_lt h
  | cons it rest ih =>
    simp only [wItems]
    split
    · exact ih s new h
    · split
      · simpa using h
      · rename_i hlt
        exact ih _ _ (lt_of_not_le hlt)

theorem wStep_inv (env : WEnv) (s : WState) (h : WInv s) : WInv (wStep env s) := by
  have h1 := wItems_inv env (env.batches s.round)
      { s with oracleLog := s.oracleLog ++ [s.now], now := s.now + env.tExtract } 0 h
  unfold wStep
  dsimp only
  split <;> exact h1

theorem wStep_len (env : WEnv) (s : WState) (h : s.collected.length < env.maxResults) :
    (wStep env s).collected.length ≤ env.maxResults := by
  have h1 := wItems_len env (env.batches s.round)
      { s with oracleLog := s.oracleLog ++ [s.now], now := s.now + env.tExtract } 0 h
  unfold wStep
  dsimp only
  split <;> exact h1

theorem wStep_scroll_adv (env : WEnv) (s : WState)
    (h : s.scrollCount = s.advLog.length) :
    (wStep env s).scrollCount = (wStep env s).advLog.length := by
  obtain ⟨-, h2, h3, -, -⟩ := wItems_untouched env (env.batches s.round)
      { s with oracleLog := s.oracleLog ++ [s.now], now := s.now + env.tExtract } 0
  unfold wStep
  dsimp only
  split
  · simp only [List.length_append, List.length_cons, List.length_nil]
    rw [h2, h3, h]
  · rw [h2, h3, h]

theorem wLoop_inv (env : WEnv) (fuel : Nat) (s : WState) (h : WInv s) :
    WInv (wLoop env fuel s) := by
  induction fuel generalizing s with
  | zero => simpa [wLoop] using h
  | succ n ih =>
    simp only [wLoop]
    split
    · exact ih _ (wStep_inv env s h)
    · exact h

theorem wLoop_len (env : WEnv) (fuel : Nat) (s : WState)
    (h : s.collected.length ≤ env.maxResults) :
    (wLoop env fuel s).collected.length ≤ env.maxResults := by
  induction fuel generalizing s with
  | zero => simpa [wLoop] using h
  | succ n ih =>
    simp only [wLoop]
    split
    · rename_i hg
      exact ih _ (wStep_len env s hg.1)
    · exact h

theorem wLoop_scroll_adv (env : WEnv) (fuel : Nat) (s : WState)
    (h : s.scrollCount = s.advLog.length) :
    (wLoop env fuel s).scrollCount = (wLoop env fuel s).advLog.length := by
  induction fuel generalizing s with
  | zero => simpa [wLoop] using h
  | succ n ih =>
    simp only [wLoop]
    split
    · exact ih _ (wStep_scroll_adv env s h)
    · exact h

theorem wLoop_stable (env : WEnv) (fuel : Nat) (s : WState) (h : ¬ wGuard env s) :
    wLoop env fuel s = s := by
  cases fuel with
  | zero => rfl
  | succ n => simp [wLoop, h]

/-- Every round taken under the guard either makes the guard false or
    increments `scroll_count`: the advance branch is skipped only when the
    target has been reached mid-batch. -/
theorem wStep_progress (env : WEnv) (s : WState) (hg : wGuard env s) :
    ¬ wGuard env (wStep env s) ∨ (wStep env s).scrollCount = s.scrollCount + 1 := by
  obtain ⟨-, h2, -, -, -⟩ := wItems_untouched env (env.batches s.round)
      { s with oracleLog := s.oracleLog ++ [s.now], now := s.now + env.tExtract } 0
  unfold wStep
  dsimp only
  split
  · right
    rw [h2]
  · left
    rename_i hcond
    intro hgs
    exact hcond ⟨hgs.1, by rw [h2]; exact hg.2.2⟩

theorem wLoop_exit (env : WEnv) (fuel : Nat) (s : WState)
    (h : wMaxScrolls < s.scrollCount + fuel) : ¬ wGuard env (wLoop env fuel s) := by
  induction fuel generalizing s with
  | zero =>
    intro hg
    simp only [wLoop] at hg
    have := hg.2.2
    omega
  | succ n ih =>
    by_cases hg : wGuard env s
    · simp only [wLoop, if_pos hg]
      rcases wStep_progress env s hg with hstop | hinc
      · rw [wLoop_stable env n _ hstop]
        exact hstop
      · exact ih _ (by omega)
    · simp only [wLoop, if_neg hg]
      exact hg

/-- At exit the webscrape loop's guard is false: the default fuel always
    suffices because `scroll_count` grows every non-final round. -/
theorem wRun_exit (env : WEnv) : ¬ wGuard env (wRun env) :=
  wLoop_exit env (wMaxScrolls + 1) wInit (by simp [wInit])

theorem wRun_inv (env : WEnv) : WInv (wRun env) :=
  wLoop_inv env (wMaxScrolls + 1) wInit ⟨List.nodup_nil, by simp [wInit]⟩

theorem wRun_len (env : WEnv) : (wRun env).collected.length ≤ env.maxResults :=
  wLoop_len env (wMaxScrolls + 1) wInit (by simp [wInit])

theorem wRun_scroll_adv (env : WEnv) :
    (wRun env).scrollCount = (wRun env).advLog.length :=
  wLoop_scroll_adv env (wMaxScrolls + 1) wInit rfl

/-- On well-shaped batches (every element an object) the exception-aware
    walk agrees with `wItems` and never errors. -/
theorem wItemsE_refines (env : WEnv) (l : List WItem) (s : WState) (new : Nat) :
    wItemsE env (l.map PyItem.obj) s new = Except.ok (wItems env l s new) := by
  induction l generalizing s new with
  | nil => rfl
  | cons it rest ih =>
    simp only [List.map_cons, wItemsE, wItems]
    split
    · exact ih s new
    · split
      · rfl
      · exact ih _ _

theorem wStepE_refines (env : WEnv) (pb : Nat → List PyItem) (s : WState)
    (h : pb s.round = (env.batches s.round).map PyItem.obj) :
    wStepE env pb s = Except.ok (wStep env s) := by
  unfold wStepE wStep
  rw [h]
  simp only [wItemsE_refines]
  split <;> rfl

theorem wLoopE_refines (env : WEnv) (pb : Nat → List PyItem)
    (h : ∀ n, pb n = (env.batches n).map PyItem.obj) :
    ∀ (fuel : Nat) (s : WState), wLoopE env pb fuel s = Except.ok (wLoop env fuel s) := by
  intro fuel
  induction fuel with
  | zero => intro s; rfl
  | succ n ih =>
    intro s
    simp only [wLoopE, wLoop]
    split
    · rw [wStepE_refines env pb s (h s.round)]
      exact ih _
    · rfl

/-- The exception-aware run is a conservative extension of the approved
    run model: on well-shaped batches it returns `Except.ok (wRun env)`. -/
theorem wRunE_refines (env : WEnv) (pb : Nat → List PyItem)
    (h : ∀ n, pb n = (env.batches n).map PyItem.obj) :
    wRunE env pb = Except.ok (wRun env) :=
  wLoopE_refines env pb h (wMaxScrolls + 1) wInit

/-! ## Helper lemmas: the deepscrape loop -/

theorem dEnrich_collected (env : DEnv) (s : DState) (record : Dict) (url : String) :
    ((dEnrich env s record url).1).collected = s.collected := by
  unfold dEnrich
  split <;> rfl

theorem dEnrich_untouched (env : DEnv) (s : DState) (record : Dict) (url : String) :
    ((dEnrich env s record url).1).failRounds = s.failRounds ∧
    ((dEnrich env s record url).1).scrolls = s.scrolls ∧
    ((dEnrich env s record url).1).round = s.round := by
  unfold dEnrich
  split <;> exact ⟨rfl, rfl, rfl⟩

theorem dEnrich_pos (env : DEnv) (s : DState) (record : Dict) (url : String)
    (h : 0 < env.depth) :
    (dEnrich env s record url).2 =
      dictUpdate record
        (analyzePageDepth env.parseObj true url env.depth (env.enrich s.enrichIdx)) := by
  unfold dEnrich
  rw [if_pos h]

theorem dItems_break (env : DEnv) (l : List DItem) (s : DState) (new : Nat)
    (h : env.deadline ≤ s.now ∨ env.wantResults ≤ s.collected.length) :
    dItems env l s new = (s, new) := by
  cases l with
  | nil => rfl
  | cons it rest => simp only [dItems, if_pos h]

theorem dAccept_len (env : DEnv) (s : DState) (it : DItem) :
    (dAccept env s it).collected.length = s.collected.length + 1 := by
  unfold dAccept
  simp [dEnrich_collected]

theorem dAccept_mem (env : DEnv) (s : DState) (it : DItem) (r : Dict)
    (hr : r ∈ s.collected) : r ∈ (dAccept env s it).collected := by
  unfold dAccept
  dsimp only
  rw [dEnrich_collected]
  exact List.mem_append_left _ hr

theorem dAccept_untouched (env : DEnv) (s : DState) (it : DItem) :
    (dAccept env s it).failRounds = s.failRounds ∧
    (dAccept env s it).scrolls = s.scrolls ∧
    (dAccept env s it).round = s.round := by
  unfold dAccept
  dsimp only
  exact dEnrich_untouched env s _ _

theorem dItems_collected_mono (env : DEnv) (l : List DItem) (s : DState) (new : Nat)
    (r : Dict) (hr : r ∈ s.collected) : r ∈ ((dItems env l s new).1).collected := by
  induction l generalizing s new with
  | nil => simpa [dItems] using hr
  | cons it rest ih =>
    simp only [dItems]
    split
    · exact hr
    · split
      · exact ih s new hr
      · split
        · exact dAccept_mem env s it r hr
        · exact ih _ _ (dAccept_mem env s it r hr)

theorem dItems_len (env : DEnv) (l : List DItem) (s : DState) (new : Nat)
    (h : s.collected.length ≤ env.wantResults) :
    ((dItems env l s new).1).collected.length ≤ env.wantResults := by
  induction l generalizing s new with
  | nil => simpa [dItems] using h
  | cons it rest ih =>
    simp only [dItems]
    split
    · exact h
    · rename_i hnb
      have hlt : s.collected.length < env.wantResults := by
        rcases Nat.lt_or_ge s.collected.length env.wantResults with hlt | hge
        · exact hlt
        · exact absurd (Or.inr hge) hnb
      have hlen : (dAccept env s it).collected.length ≤ env.wantResults := by
        rw [dAccept_len]
        omega
      split
      · exact ih s new h
      · split
        · exact hlen
        · exact ih _ _ hlen

theorem dItems_untouched (env : DEnv) (l : List DItem) (s : DState) (new : Nat) :
    ((dItems env l s new).1).failRounds = s.failRounds ∧
    ((dItems env l s new).1).scrolls = s.scrolls ∧
    ((dItems env l s new).1).round = s.round := by
  induction l generalizing s new with
  | nil => simp [dItems]
  | cons it rest ih =>
    simp only [dItems]
    split
    · exact ⟨rfl, rfl, rfl⟩
    · split
      · exact ih s new
      · obtain ⟨e1, e2, e3⟩ := dAccept_untouched env s it
        split
        · exact ⟨e1, e2, e3⟩
        · obtain ⟨i1, i2, i3⟩ := ih (dAccept env s it) (new + 1)
          exact ⟨i1.trans e1, i2.trans e2, i3.trans e3⟩

theorem dStep_len (env : DEnv) (s : DState) (h : s.collected.length ≤ env.wantResults) :
    (dStep env s).collected.length ≤ env.wantResults := by
  have h1 := dItems_len env (env.batches s.round)
      { s with oracleLog := s.oracleLog ++ [s.now], now := s.now + env.tExtract } 0 h
  unfold dStep
  dsimp only
  split <;> exact h1

theorem dLoop_stable (env : DEnv) (fuel : Nat) (s : DState) (h : ¬ dGuard env s) :
    dLoop env fuel s = s := by
  cases fuel with
  | zero => rfl
  | succ n => simp [dLoop, h]

/-- Every deepscrape round taken under the guard either makes the guard
    false or increments `scrolls`. -/
theorem dStep_progress (env : DEnv) (s : DState) (hg : dGuard env s) :
    ¬ dGuard env (dStep env s) ∨ (dStep env s).scrolls = s.scrolls + 1 := by
  obtain ⟨-, h2, -⟩ := dItems_untouched env (env.batches s.round)
      { s with oracleLog := s.oracleLog ++ [s.now], now := s.now + env.tExtract } 0
  unfold dStep
  dsimp only
  split
  · right
    rw [h2]
  · left
    rename_i hcond
    intro hgs
    exact hcond ⟨hgs.1, hgs.2.1, by rw [h2]; exact hg.2.2.2⟩

theorem dLoop_exit (env : DEnv) (fuel : Nat) (s : DState)
    (h : dMaxScrolls < s.scrolls + fuel) : ¬ dGuard env (dLoop env fuel s) := by
  induction fuel generalizing s with
  | zero =>
    intro hg
    simp only [dLoop] at hg
    have := hg.2.2.2
    omega
  | succ n ih =>
    by_cases hg : dGuard env s
    · simp only [dLoop, if_pos hg]
      rcases dStep_progress env s hg with hstop | hinc
      · rw [dLoop_stable env n _ hstop]
        exact hstop
      · exact ih _ (by omega)
    · simp only [dLoop, if_neg hg]
      exact hg

theorem dLoop_len (env : DEnv) (fuel : Nat) (s : DState)
    (h : s.collected.length ≤ env.wantResults) :
    (dLoop env fuel s).collected.length ≤ env.wantResults := by
  induction fuel generalizing s with
  | zero => simpa [dLoop] using h
  | succ n ih =>
    simp only [dLoop]
    split
    · exact ih _ (dStep_len env s h)
    · exact h

/-- At exit the deepscrape loop's guard is false. -/
theorem dRun_exit (env : DEnv) : ¬ dGuard env (dRun env) :=
  dLoop_exit env (dMaxScrolls + 1) dInit (by simp [dInit])

theorem dRun_len (env : DEnv) : (dRun env).collected.length ≤ env.wantResults :=
  dLoop_len env (dMaxScrolls + 1) dInit (by simp [dInit])

/-! ## Helper lemmas: the facebook loop -/

theorem fItems_inv (env : FEnv) (l : List FItem) (s : FState) (new : Nat)
    (h : FInv s) : FInv ((fItems env l s new).1) := by
  induction l generalizing s new with
  | nil => simpa [fItems] using h
  | cons it rest ih =>
    simp only [fItems]
    split
    · exact ih s new h
    · rename_i hseen
      have h1 : FInv { s with
          seen := (it.post_id?.getD ("post_" ++ toString s.collected.length)) :: s.seen } :=
        ⟨h.1, fun r hr => List.mem_cons_of_mem _ (h.2 r hr)⟩
      split
      · exact ih _ _ h1
      · split
        · exact ih _ _ h1
        · split
          · exact ih _ _ h1
          · have hfresh : (it.post_id?.getD ("post_" ++ toString s.collected.length)) ∉
                s.collected.map FRow.post_id := by
              intro hmem
              obtain ⟨r, hr, hru⟩ := List.mem_map.mp hmem
              exact hseen (hru ▸ h.2 r hr)
            have h2 : FInv { s with
                seen := (it.post_id?.getD ("post_" ++ toString s.collected.length)) :: s.seen
                collected := s.collected ++
                  [{ post_id := it.post_id?.getD ("post_" ++ toString s.collected.length)
                     author_name := it.author_name?.getD "Unknown"
                     post_text := pyStrip (it.post_text?.getD "")
                     likes_count := it.likes_count?.getD "0"
                     comments_count := it.comments_count?.getD "0" }] } := by
              constructor
              · simpa using List.Nodup.append h.1 (by simp) (by simpa using hfresh)
              · intro r hr
                rcases List.mem_append.mp hr with hr | hr
                · exact List.mem_cons_of_mem _ (h.2 r hr)
                · simp only [List.mem_singleton] at hr
                  subst hr
                  simp
            split
            · exact h2
            · exact ih _ _ h2

theorem fStep_inv (env : FEnv) (s : FState) (h : FInv s) : FInv (fStep env s) := by
  have h1 := fItems_inv env (env.batches s.round) s 0 h
  unfold fStep
  dsimp only
  split <;> exact h1

theorem fLoop_inv (env : FEnv) (fuel : Nat) (s : FState) (h : FInv s) :
    FInv (fLoop env fuel s) := by
  induction fuel generalizing s with
  | zero => simpa [fLoop] using h
  | succ n ih =>
    simp only [fLoop]
    split
    · exact ih _ (fStep_inv env s h)
    · exact h

theorem fRun_inv (env : FEnv) : FInv (fRun env) :=
  fLoop_inv env (fMaxScrolls + 1) fInit ⟨List.nodup_nil, by simp [fInit]⟩

/-! ## Helper lemmas: the Sink -/

theorem count_header_map_rows (rs : List Dict) (term now : String) :
    ((rs.map (fun r => CsvLine.row (csvRowOf term now r))).count CsvLine.header) = 0 := by
  rw [List.count_eq_zero]
  intro hmem
  obtain ⟨r, -, hr⟩ := List.mem_map.mp hmem
  exact CsvLine.noConfusion hr

theorem writeCsv_header_count (f : Option (List CsvLine)) (term now : String) (rs : List Dict) :
    (writeCsv f term now rs).count CsvLine.header =
      (match f with
       | none => 1
       | some old => old.count CsvLine.header) := by
  cases f <;>
    simp [writeCsv, List.count_append, count_header_map_rows]

theorem appendSeq_header_count (term now : String) (bs : List (List Dict)) (l : List CsvLine)
    (h : l.count CsvLine.header = 1) :
    ((appendSeq term now bs (some l)).getD []).count CsvLine.header = 1 := by
  induction bs generalizing l with
  | nil => simpa [appendSeq] using h
  | cons b rest ih =>
    simp only [appendSeq]
    exact ih _ (by rw [writeCsv_header_count]; exact h)

theorem appendSeq_header_once (term now : String) (bs : List (List Dict)) (h : bs ≠ []) :
    ((appendSeq term now bs none).getD []).count CsvLine.header = 1 := by
  cases bs with
  | nil => exact absurd rfl h
  | cons b rest =>
    simp only [appendSeq]
    exact appendSeq_header_count term now rest _ (by rw [writeCsv_header_count])

/-! ## Helper lemmas: counting rows with a given URL -/

theorem filter_url_count (l : List WRow) :
    (l.filter (fun r => r.url = "")).length = (l.map WRow.url).count "" := by
  induction l with
  | nil => rfl
  | cons r rest ih =>
    simp only [List.filter_cons, List.map_cons, List.count_cons]
    by_cases hr : r.url = ""
    · simp [hr, ih]
    · simp [hr, Ne.symm hr, ih]

theorem nodup_empty_url_count (l : List WRow) (h : (l.map WRow.url).Nodup) :
    (l.filter (fun r => r.url = "")).length ≤ 1 := by
  rw [filter_url_count]
  exact List.nodup_iff_count_le_one.mp h ""

/-! ## Helper lemmas: skip and accept equations of the item walks -/

/-- A webscrape candidate whose stripped title is empty or whose URL is
    already seen is skipped: the walk continues unchanged. -/
theorem wItems_skip (env : WEnv) (it : WItem) (rest : List WItem) (s : WState) (new : Nat)
    (h : pyStrip (it.title?.getD "") = "" ∨ it.url?.getD "" ∈ s.seen) :
    wItems env (it :: rest) s new = wItems env rest s new := by
  simp only [wItems]
  rw [if_pos h]

/-- A deepscrape candidate with a falsy URL is skipped (whatever the rest
    of the walk does, including an immediate deadline/target break). -/
theorem dItems_skip_url (env : DEnv) (it : DItem) (rest : List DItem) (s : DState) (new : Nat)
    (h : it.url?.getD "" = "") :
    dItems env (it :: rest) s new = dItems env rest s new := by
  by_cases hb : env.deadline ≤ s.now ∨ env.wantResults ≤ s.collected.length
  · rw [dItems_break env _ s new hb, dItems_break env _ s new hb]
  · simp only [dItems]
    rw [if_neg hb, if_pos (Or.inl h)]

/-- A webscrape candidate with a non-empty stripped title whose URL value
    (empty when missing) is unseen is accepted: its URL enters the
    seen-set and a row carrying exactly that URL is appended. -/
theorem wItems_accept_url (env : WEnv) (it : WItem) (rest : List WItem) (s : WState) (new : Nat)
    (ht : pyStrip (it.title?.getD "") ≠ "") (hfresh : it.url?.getD "" ∉ s.seen) :
    it.url?.getD "" ∈ ((wItems env (it :: rest) s new).1).seen ∧
    ∃ r ∈ ((wItems env (it :: rest) s new).1).collected, r.url = it.url?.getD "" := by
  have hcond : ¬ (pyStrip (it.title?.getD "") = "" ∨ it.url?.getD "" ∈ s.seen) := by
    intro hc
    exact hc.elim ht hfresh
  simp only [wItems]
  rw [if_neg hcond]
  split
  · constructor
    · exact List.mem_cons_self _ _
    · exact ⟨_, List.mem_append_right _ (List.mem_singleton_self _), rfl⟩
  · constructor
    · exact wItems_seen_mono env rest _ _ _ (List.mem_cons_self _ _)
    · exact ⟨_, wItems_collected_mono env rest _ _ _
        (List.mem_append_right _ (List.mem_singleton_self _)), rfl⟩

/-! ## Claim theorems -/

/-- C1, counterexample: the deepscrape collector keeps no seen-set at all.
    On a round whose batch holds two candidates with the same URL `u` (and
    valid titles), both are accepted, so the returned sequence carries two
    entries with the same Identity — refuting the claim that no two entries
    of any run's accepted sequence share an Identity. -/
theorem c1_dedup_counterexample :
    ((dRun envDup).collected.map (fun r => dictGet? r "url")) = [some "u", some "u"] ∧
    ¬ ((dRun envDup).collected.map (fun r => dictGet? r "url")).Nodup := by
  decide

/-- C1, amended: the webscrape collector (Identity = URL) and the facebook
    collector (Identity = post id) do maintain the dedup invariant — no two
    accepted entries share an Identity, and a candidate whose URL is
    already seen is skipped outright (first seen wins, the duplicate is
    dropped, not merged). The deepscrape collector deduplicates nothing. -/
theorem c1_dedup_amended :
    (∀ env : WEnv, ((wRun env).collected.map WRow.url).Nodup) ∧
    (∀ env : FEnv, ((fRun env).collected.map FRow.post_id).Nodup) ∧
    (∀ (env : WEnv) (it : WItem) (rest : List WItem) (s : WState) (new : Nat),
      it.url?.getD "" ∈ s.seen → wItems env (it :: rest) s new = wItems env rest s new) :=
  ⟨fun env => (wRun_inv env).1, fun env => (fRun_inv env).1,
   fun env it rest s new h => wItems_skip env it rest s new (Or.inr h)⟩

/-- C1, witness: the dedup invariant at a concrete run, and the skip
    equation at a concrete state that has already seen `u`. -/
theorem c1_dedup_witness :
    ((wRun envR1).collected.map WRow.url).Nodup ∧
    wItems envR1 [itemT] { wInit with seen := ["u"] } 0 =
      wItems envR1 [] { wInit with seen := ["u"] } 0 :=
  ⟨c1_dedup_amended.1 envR1,
   c1_dedup_amended.2.2 envR1 itemT [] { wInit with seen := ["u"] } 0 (by decide)⟩

/-- C2, counterexample: in the webscrape collector a candidate with a
    missing URL and a valid title is NOT dropped: the run accepts it, the
    returned sequence has length 1 (it counts toward the target) and its
    URL field is the empty string. -/
theorem c2_identity_counterexample :
    (wRun envNoUrl).collected.length = 1 ∧
    (wRun envNoUrl).collected.map WRow.url = [""] := by
  decide

/-- C2, amended: the deepscrape collector drops a candidate with an empty
    or absent URL; the webscrape collector drops only candidates with an
    empty stripped title — a candidate with a missing URL and a valid
    title is accepted, the empty string enters the seen-set, and a row with
    URL `""` is appended. -/
theorem c2_identity_amended :
    (∀ (env : DEnv) (it : DItem) (rest : List DItem) (s : DState) (new : Nat),
      it.url?.getD "" = "" → dItems env (it :: rest) s new = dItems env rest s new) ∧
    (∀ (env : WEnv) (it : WItem) (rest : List WItem) (s : WState) (new : Nat),
      pyStrip (it.title?.getD "") = "" →
        wItems env (it :: rest) s new = wItems env rest s new) ∧
    (∀ (env : WEnv) (it : WItem) (rest : List WItem) (s : WState) (new : Nat),
      it.url?.getD "" = "" → pyStrip (it.title?.getD "") ≠ "" → "" ∉ s.seen →
        ("" ∈ ((wItems env (it :: rest) s new).1).seen ∧
         ∃ r ∈ ((wItems env (it :: rest) s new).1).collected, r.url = "")) := by
  refine ⟨fun env it rest s new h => dItems_skip_url env it rest s new h,
    fun env it rest s new h => wItems_skip env it rest s new (Or.inl h),
    fun env it rest s new hu ht hfresh => ?_⟩
  have h := wItems_accept_url env it rest s new ht (by rw [hu]; exact hfresh)
  rw [hu] at h
  exact h

/-- C2, witness: the deepscrape drop and the webscrape accept at concrete
    inputs. -/
theorem c2_identity_witness :
    dItems envDup [dItemNoUrl] dInit 0 = dItems envDup [] dInit 0 ∧
    ("" ∈ ((wItems envR1 [itemNoUrl] wInit 0).1).seen ∧
     ∃ r ∈ ((wItems envR1 [itemNoUrl] wInit 0).1).collected, r.url = "") :=
  ⟨c2_identity_amended.1 envDup dItemNoUrl [] dInit 0 (by decide),
   c2_identity_amended.2.2 envR1 itemNoUrl [] wInit 0 (by decide) (by decide) (by decide)⟩

/-- C3, counterexample: the collection loop returns only the collected
    rows — no termination reason accompanies them. Two concrete runs, one
    ending because the target was reached (`envR1`) and one ending stalled
    after three empty rounds (`envR2`), return identical values, so no
    function of the returned value can yield the termination reason the
    spec says is returned. -/
theorem c3_reason_counterexample :
    wCollect envR1 = wCollect envR2 ∧
    specReasonWeb envR1 (wRun envR1) = TermReason.targetReached ∧
    specReasonWeb envR2 (wRun envR2) = TermReason.stalled ∧
    ¬ ∃ f : List WRow → TermReason,
        ∀ env : WEnv, f (wCollect env) = specReasonWeb env (wRun env) := by
  refine ⟨by decide, by decide, by decide, ?_⟩
  rintro ⟨f, hf⟩
  have h1 := hf envR1
  have h2 := hf envR2
  have hc : wCollect envR1 = wCollect envR2 := by decide
  rw [hc] at h1
  rw [h1] at h2
  have hne : specReasonWeb envR1 (wRun envR1) ≠ specReasonWeb envR2 (wRun envR2) := by decide
  exact hne h2

/-- C3, amended: every run terminates in a state where one of the four
    spec conditions holds — target reached, deadline passed (deepscrape
    only; webscrape has no deadline), stalled (fail-round limit), or
    advance cap exhausted — but the loop returns no reason value. -/
theorem c3_reason_amended (we : WEnv) (de : DEnv) :
    (we.maxResults ≤ (wRun we).collected.length ∨ 3 ≤ (wRun we).failRounds ∨
      wMaxScrolls ≤ (wRun we).scrollCount) ∧
    (de.wantResults ≤ (dRun de).collected.length ∨ de.deadline ≤ (dRun de).now ∨
      3 ≤ (dRun de).failRounds ∨ dMaxScrolls ≤ (dRun de).scrolls) := by
  constructor
  · have h := wRun_exit we
    simp only [wGuard, not_and_or, not_lt] at h
    exact h
  · have h := dRun_exit de
    simp only [dGuard, not_and_or, not_lt] at h
    exact h

/-- C4, counterexample: the webscrape loop never reads the clock. With an
    empty source and 5 time units per extraction call, the run begins
    Oracle extraction rounds at times 0, 5 and 10 (each logged at the
    instant the extraction routine is entered); with any 1-unit budget
    (deadline 1, a positive budget) the rounds at 5 and 10 call the Oracle
    long after the deadline has passed, and nothing is ever checked. -/
theorem c4_deadline_counterexample :
    (wRun envLate).oracleLog = [0, 5, 10] ∧
    ¬ (∀ t ∈ (wRun envLate).oracleLog, t < 1) := by
  decide

/-- C4, amended: only the deepscrape collector checks the wall-clock
    deadline — in the round guard and before every candidate (the head
    check of `dItems`). Once the clock has passed the deadline, any check
    detects it and the run winds down without issuing another Oracle call:
    the remaining batch walk returns its state unchanged (no Oracle-log
    entry, no accept) and the loop terminates without a further round.
    Note the check and the call initiation are separated by navigation work
    (`page.goto`, a fixed 2-second pause, a screenshot — `tNav` in the
    model) that the source never re-checks, so an enrichment call can still
    be initiated after a deadline that expires inside that window: the code
    does not guarantee that every call starts before the deadline, only
    that none is issued after a check has detected expiry. -/
theorem c4_deadline_amended (env : DEnv) (s : DState) (l : List DItem) (new : Nat)
    (fuel : Nat) (h : env.deadline ≤ s.now) :
    dItems env l s new = (s, new) ∧
    ((dItems env l s new).1).oracleLog = s.oracleLog ∧
    dLoop env fuel s = s ∧
    (dLoop env fuel s).oracleLog = s.oracleLog := by
  have hitems := dItems_break env l s new (Or.inl h)
  have hloop : dLoop env fuel s = s :=
    dLoop_stable env fuel s (fun hg => absurd hg.2.1 (not_lt.mpr h))
  exact ⟨hitems, by rw [hitems], hloop, by rw [hloop]⟩

/-- C4, witness: a concrete deepscrape state whose clock (5) has reached
    the deadline of `envDup` (5): the batch walk and the loop both do
    nothing further. -/
theorem c4_deadline_witness :
    dItems envDup [dItemU "a"] { dInit with now := 5 } 0 = ({ dInit with now := 5 }, 0) ∧
    ((dItems envDup [dItemU "a"] { dInit with now := 5 } 0).1).oracleLog =
      ({ dInit with now := 5 } : DState).oracleLog ∧
    dLoop envDup 9 { dInit with now := 5 } = { dInit with now := 5 } ∧
    (dLoop envDup 9 { dInit with now := 5 }).oracleLog =
      ({ dInit with now := 5 } : DState).oracleLog :=
  c4_deadline_amended envDup { dInit with now := 5 } [dItemU "a"] 0 9 (by decide)

/-- C5, counterexample: `scroll_count` is incremented after every advance,
    whatever succeeded. On a run whose "Load more" affordance always
    succeeds (and an empty source), the advance log holds three affordance
    clicks and no scroll fallback at all, yet the counter reaches 3 —
    refuting the claim that it is incremented only for the scroll
    fallback. -/
theorem c5_advance_counterexample :
    (wRun envClick).scrollCount = 3 ∧
    (wRun envClick).advLog = [AdvKind.loadMore, AdvKind.loadMore, AdvKind.loadMore] ∧
    (wRun envClick).advLog.count AdvKind.scroll = 0 := by
  decide

/-- C5, amended: the counter checked against the advance cap counts every
    advance attempt — affordance clicks included: it always equals the
    length of the advance log. -/
theorem c5_advance_amended (env : WEnv) :
    (wRun env).scrollCount = (wRun env).advLog.length :=
  wRun_scroll_adv env

/-- C6, counterexample: with target 11 and a source yielding one fresh
    valid record every round, the run stops at the advance cap with 10
    accepted records, not 11 — the fail-round counter is 0 and every one of
    the 10 executed rounds accepted a record, yet the target is missed. -/
theorem c6_target_counterexample :
    (wRun (envA 11)).collected.length = 10 ∧
    (wRun (envA 11)).scrollCount = 10 ∧
    (wRun (envA 11)).failRounds = 0 := by
  decide

/-- C6, amended: no run of either collection loop ever returns more than
    the requested target (a mid-batch surplus is never appended past it);
    and a source yielding one fresh valid record per round reaches exactly
    the target provided the target is reachable within the advance cap
    (target at most `wMaxScrolls = 10` for the webscrape loop). -/
theorem c6_target_amended :
    (∀ env : WEnv, (wRun env).collected.length ≤ env.maxResults) ∧
    (∀ env : DEnv, (dRun env).collected.length ≤ env.wantResults) ∧
    (∀ k : Nat, 1 ≤ k → k ≤ 10 → (wRun (envA k)).collected.length = k) := by
  refine ⟨wRun_len, dRun_len, ?_⟩
  intro k h1 h2
  interval_cases k <;> decide

/-- C6, witness: Scenario A of the spec — target 5, one fresh record per
    round — returns exactly 5 accepted records. -/
theorem c6_target_witness : (wRun (envA 5)).collected.length = 5 :=
  c6_target_amended.2.2 5 (by decide) (by decide)

/-- C7, counterexample: Oracle output that parses but is ill-shaped is
    NOT absorbed. The reply `[5]` has a locatable JSON array and
    `json.loads` succeeds, but its element is not an object, so
    `result.get('url', '')` raises `AttributeError` inside the item loop
    and nothing in `_scroll_and_collect_results` or `_run` catches it. In
    this run round 0 accepts one valid record and round 1 hits the
    ill-shaped reply: the whole run errors, the accepted record is lost
    and no CSV is written — the failure is propagated and aborts the run,
    refuting the claim for the malformed-output case. -/
theorem c7_oracle_counterexample :
    locateJsonArray "[5]" = some "[5]" ∧
    analyzeSearchResults parseBad respBad = [PyItem.bad] ∧
    wRunE envR2
      (fun n => if n = 0 then [PyItem.obj itemT]
        else analyzeSearchResults parseBad respBad) =
      Except.error () := by
  refine ⟨by decide, by decide, ?_⟩
  rfl

/-- C7, amended: the failure modes the code does absorb — the Oracle call
    raised, the reply holds no locatable JSON array, or `json.loads`
    raises on the slice — yield the empty candidate list, and the run
    equals the run whose k-th round is an explicit zero-candidate round:
    those failures are never propagated and never abort the run. Oracle
    output whose slice parses to ill-shaped elements is not validated,
    however, and crashes the item loop uncaught (see the
    counterexample). -/
theorem c7_oracle_failure (parse : String → Option (List PyItem)) (resp : ApiResp)
    (h : oracleFailure parse resp) :
    analyzeSearchResults parse resp = [] ∧
    ∀ (env : WEnv) (pb : Nat → List PyItem) (rs : Nat → ApiResp) (k : Nat),
      pb = (fun n => analyzeSearchResults parse (rs n)) → rs k = resp →
      wRunE env pb = wRunE env (fun n => if n = k then [] else pb n) := by
  have h1 : analyzeSearchResults parse resp = [] := by
    rcases h with h | ⟨c, hc, h⟩
    · subst h
      rfl
    · subst hc
      rcases h with h | ⟨j, hj, hp⟩
      · simp [analyzeSearchResults, h]
      · simp [analyzeSearchResults, hj, hp]
  refine ⟨h1, ?_⟩
  intro env pb rs k hb hk
  have hbatch : (fun n => if n = k then ([] : List PyItem) else pb n) = pb := by
    funext n
    by_cases hn : n = k
    · subst hn
      rw [if_pos rfl, hb]
      dsimp only
      rw [hk, h1]
    · rw [if_neg hn]
  rw [hbatch]

/-- C7, witness: an always-raising Oracle with an always-raising parser at
    round 0 of a concrete run. -/
theorem c7_oracle_failure_witness :
    analyzeSearchResults parse0 ApiResp.err = [] ∧
    wRunE envR1 (fun n => analyzeSearchResults parse0 (rs0 n)) =
      wRunE envR1
        (fun n => if n = 0 then [] else analyzeSearchResults parse0 (rs0 n)) := by
  have h := c7_oracle_failure parse0 ApiResp.err (Or.inl rfl)
  exact ⟨h.1, h.2 envR1 (fun n => analyzeSearchResults parse0 (rs0 n)) rs0 0 rfl rfl⟩

/-- C8: when the depth pass fails (navigation error, Oracle error, no
    locatable JSON object, or unparsable slice), `_analyze_page_depth`
    returns only `{"url": url}`; merging that into the shallow record with
    `record.update` leaves the record unchanged (its URL field keeps the
    same value), and the accepted state appends exactly the original
    shallow record. The failure is absorbed inside the pass. -/
theorem c8_enrichment_failure (parseObj : String → Option Dict) (o : EnrichOutcome)
    (url : String) (depth : Nat) (record : Dict)
    (hd : 1 ≤ depth) (hf : enrichFailed parseObj o)
    (hu : dictGet? record "url" = some url) :
    analyzePageDepth parseObj true url depth o = [("url", url)] ∧
    dictUpdate record (analyzePageDepth parseObj true url depth o) = record ∧
    ∀ (env : DEnv) (s : DState) (it : DItem),
      env.depth = depth → env.parseObj = parseObj → env.enrich s.enrichIdx = o →
      it.url?.getD "" = url →
      (dAccept env s it).collected =
        s.collected ++ [dRecordOf it url (pyStrip (it.title?.getD ""))] := by
  have hdz : ¬ depth = 0 := by omega
  have h1 : analyzePageDepth parseObj true url depth o = [("url", url)] := by
    rcases hf with h | h | ⟨c, hc, h⟩
    · subst h
      simp [analyzePageDepth, hdz]
    · subst h
      simp [analyzePageDepth, hdz]
    · subst hc
      rcases h with h | ⟨j, hj, hp⟩
      · simp [analyzePageDepth, hdz, h]
      · simp [analyzePageDepth, hdz, hj, hp]
  have h2 : ∀ rec : Dict, dictGet? rec "url" = some url →
      dictUpdate rec (analyzePageDepth parseObj true url depth o) = rec := by
    intro rec hrec
    rw [h1, dictUpdate_single]
    exact dictSet_of_get rec "url" url hrec
  refine ⟨h1, h2 record hu, ?_⟩
  intro env s it hdep hp ho hurl
  have hrec : dictGet? (dRecordOf it url (pyStrip (it.title?.getD ""))) "url" = some url := by
    simp [dRecordOf, dictGet?]
  unfold dAccept
  dsimp only
  rw [hurl]
  rw [dEnrich_collected]
  rw [dEnrich_pos env s _ url (by omega : 0 < env.depth)]
  rw [hdep, hp, ho]
  rw [h2 _ hrec]

/-- C8, witness: a navigation failure at depth 1 leaves a concrete
    two-field record untouched. -/
theorem c8_enrichment_failure_witness :
    analyzePageDepth (fun _ => none) true "u" 1 EnrichOutcome.navFail = [("url", "u")] ∧
    dictUpdate [("url", "u"), ("title", "t")]
      (analyzePageDepth (fun _ => none) true "u" 1 EnrichOutcome.navFail) =
      [("url", "u"), ("title", "t")] := by
  have h := c8_enrichment_failure (fun _ => none) EnrichOutcome.navFail "u" 1
      [("url", "u"), ("title", "t")] (by decide) (Or.inl rfl) (by decide)
  exact ⟨h.1, h.2.1⟩

/-- C9: the Sink's append — the output path is a function of the search
    term alone; the header line is written exactly when the file does not
    exist, hence exactly once over any nonempty sequence of appends to the
    same fresh path; existing lines are preserved as a prefix, in order,
    with the new rows appended after them; and a field absent from a
    record is written as the empty value in its column. -/
theorem c9_sink (term now : String) (old : List CsvLine) (results : List Dict)
    (bs : List (List Dict)) (hbs : bs ≠ []) (r : Dict)
    (hr : dictGet? r "author" = none) :
    (∀ (f₁ f₂ : Option (List CsvLine)) (n₁ n₂ : String) (r₁ r₂ : List Dict),
      (writeCsvFull f₁ term n₁ r₁).1 = (writeCsvFull f₂ term n₂ r₂).1) ∧
    writeCsv none term now results =
      CsvLine.header :: results.map (fun q => CsvLine.row (csvRowOf term now q)) ∧
    writeCsv (some old) term now results =
      old ++ results.map (fun q => CsvLine.row (csvRowOf term now q)) ∧
    ((appendSeq term now bs none).getD []).count CsvLine.header = 1 ∧
    (csvRowOf term now r).author = "" := by
  refine ⟨fun _ _ _ _ _ _ => rfl, rfl, rfl, appendSeq_header_once term now bs hbs, ?_⟩
  simp [csvRowOf, hr]

/-- C9, witness: two successive appends to a fresh path write one header,
    and a record without an author gets an empty author cell. -/
theorem c9_sink_witness :
    ((appendSeq "q" "T" [[], []] none).getD []).count CsvLine.header = 1 ∧
    (csvRowOf "q" "T" [("url", "u")]).author = "" := by
  have h := c9_sink "q" "T" [] [] [[], []] (by decide) [("url", "u")] (by decide)
  exact ⟨h.2.2.2.1, h.2.2.2.2⟩

/-- C10: in the webscrape collector at most one accepted record per run
    has an empty URL: a candidate with a valid title and missing URL is
    accepted with URL recorded as `""` (which enters the seen-set), and
    once `""` is in the seen-set every later candidate with a missing URL
    is skipped as a duplicate. -/
theorem c10_empty_url (env : WEnv) (it : WItem) (rest : List WItem)
    (s₁ s₂ : WState) (new : Nat)
    (hu : it.url?.getD "" = "") (ht : pyStrip (it.title?.getD "") ≠ "")
    (hfresh : "" ∉ s₁.seen) (hseen : "" ∈ s₂.seen) :
    ((wRun env).collected.filter (fun r => r.url = "")).length ≤ 1 ∧
    ("" ∈ ((wItems env (it :: rest) s₁ new).1).seen ∧
      ∃ r ∈ ((wItems env (it :: rest) s₁ new).1).collected, r.url = "") ∧
    wItems env (it :: rest) s₂ new = wItems env rest s₂ new := by
  refine ⟨nodup_empty_url_count _ (wRun_inv env).1, ?_, ?_⟩
  · have h := wItems_accept_url env it rest s₁ new ht (by rw [hu]; exact hfresh)
    rw [hu] at h
    exact h
  · refine wItems_skip env it rest s₂ new (Or.inr ?_)
    rw [hu]
    exact hseen

/-- C10, witness: the bound, the acceptance and the skip at concrete
    inputs (the no-URL candidate, a fresh state, and a state that has
    already seen the empty URL). -/
theorem c10_empty_url_witness :
    ((wRun envR1).collected.filter (fun r => r.url = "")).length ≤ 1 ∧
    ("" ∈ ((wItems envR1 [itemNoUrl] wInit 0).1).seen ∧
      ∃ r ∈ ((wItems envR1 [itemNoUrl] wInit 0).1).collected, r.url = "") ∧
    wItems envR1 [itemNoUrl] { wInit with seen := [""] } 0 =
      wItems envR1 [] { wInit with seen := [""] } 0 :=
  c10_empty_url envR1 itemNoUrl [] wInit { wInit with seen := [""] } 0
    (by decide) (by decide) (by decide) (by decide)

end Psyduck
